import Mathlib

/-!
Verification model of the mcp-js-debugger session broker.

The repository contains two generations of the broker:
the WebSocketClient-based session manager (modelled under the
SessionManagerWs prefix) and the CDP-client-based session manager
(modelled under the SessionManagerCdp prefix), together with the
source-map manager.  Definitions are shallow embeddings of the
TypeScript source; external collaborators (the platform URL parser,
the WebSocket transport, the target runtime, the source-map library
consumer, JSON parsing and base64 decoding) enter as explicit
parameters so that every function stays pure and executable.
-/

set_option maxRecDepth 4096

/-- Model of a JavaScript Map with string keys: an association list in
insertion order.  Keys are unique in every map built from the empty map
by set and delete, matching the JavaScript Map contract. -/
abbrev JsMap (α : Type) : Type := List (String × α)

/-- Lookup, returning the value of the first entry with the given key. -/
def JsMap.get? {α : Type} : JsMap α → String → Option α
  | [], _ => none
  | (k, v) :: rest, key => if k = key then some v else JsMap.get? rest key

/-- Map.set semantics: replace the value in place when the key exists,
append a new entry otherwise. -/
def JsMap.set {α : Type} : JsMap α → String → α → JsMap α
  | [], key, v => [(key, v)]
  | (k, w) :: rest, key, v =>
      if k = key then (k, v) :: rest else (k, w) :: JsMap.set rest key v

/-- Map.delete semantics: remove the first entry with the given key. -/
def JsMap.delete {α : Type} : JsMap α → String → JsMap α
  | [], _ => []
  | (k, w) :: rest, key =>
      if k = key then rest else (k, w) :: JsMap.delete rest key

/-- Map.has semantics. -/
def JsMap.has {α : Type} (m : JsMap α) (key : String) : Bool :=
  (m.get? key).isSome

/-- Map.size semantics (keys are unique in reachable maps). -/
def JsMap.size {α : Type} (m : JsMap α) : Nat := m.length

/-- Values in insertion order, as produced by Array.from(map.values()). -/
def JsMap.values {α : Type} (m : JsMap α) : List α := m.map Prod.snd

/-- Keys in insertion order. -/
def JsMap.keysOf {α : Type} (m : JsMap α) : List String := m.map Prod.fst

/-- Error codes of the structured errors raised by the broker. -/
inductive ErrorCode where
  | sessionNotFound
  | sessionInvalidState
  | connectionFailed
  | protocolError
  | invalidParameters
  | commandTimeout
  | breakpointNotFound
  | scriptNotFound
  | sourceMapFailure
  | maxSessionsReached
deriving DecidableEq, Repr

/-- Structured error carrying a code and a message. -/
structure DebuggerError where
  code : ErrorCode
  message : String
deriving DecidableEq, Repr

/-- Session lifecycle states. -/
inductive SessionState where
  | connecting
  | connected
  | paused
  | running
  | disconnected
deriving DecidableEq, Repr

/-- Primitive JavaScript value as it appears in protocol payloads.  The
undef constructor stands for the value undefined on a present key. -/
inductive Jv where
  | undef
  | vNull
  | vBool (b : Bool)
  | vNum (n : Int)
  | vStr (s : String)
deriving DecidableEq, Repr

/-- Remote object of the inspector protocol.  The value field is some x
exactly when the value key is present on the wire object, so that the
JavaScript test (quote value in result unquote) is value.isSome. -/
structure RemoteObject where
  type : String
  objectId : Option String := none
  value : Option Jv := none
  unserializableValue : Option String := none
  description : Option String := none
deriving DecidableEq, Repr

/-- JavaScript truthiness of an optional string: present and nonempty. -/
def truthyStr? (o : Option String) : Bool :=
  match o with
  | none => false
  | some s => decide (s ≠ "")

/-- Scope chain entry of a call frame. -/
structure Scope where
  scopeType : String
  object : RemoteObject
deriving DecidableEq, Repr

/-- Wire location inside a script, 0-based line, optional column. -/
structure Location where
  scriptId : String
  lineNumber : Int
  columnNumber : Option Int := none
deriving DecidableEq, Repr

/-- Call frame of a paused event. -/
structure CallFrame where
  callFrameId : String
  functionName : String
  location : Location
  scopeChain : List Scope
  thisObject : RemoteObject
deriving DecidableEq, Repr

/-- Paused snapshot installed by a Debugger.paused event.  The async
stack trace is kept as an opaque handle. -/
structure PausedState where
  reason : String
  callFrames : List CallFrame
  asyncStackTrace : Option String := none
  hitBreakpoints : Option (List String) := none
deriving DecidableEq, Repr

/-- Resolved breakpoint location with the column normalised to 0 when
absent (CDP generation) or taken verbatim (Ws generation). -/
structure ResolvedLocation where
  scriptId : String
  lineNumber : Int
  columnNumber : Int
deriving DecidableEq, Repr

/-- Breakpoint record of the CDP-based session manager. -/
structure BreakpointInfo where
  id : String
  url : String
  lineNumber : Int
  columnNumber : Option Int := none
  condition : Option String := none
  enabled : Bool := true
  resolvedLocations : List ResolvedLocation := []
deriving DecidableEq, Repr

/-- Breakpoint record of the WebSocketClient-based session manager; its
resolved list is called locations in that source. -/
structure WsBreakpointInfo where
  id : String
  url : String
  lineNumber : Int
  columnNumber : Option Int := none
  condition : Option String := none
  enabled : Bool := true
  locations : List ResolvedLocation := []
deriving DecidableEq, Repr

/-- Script record inserted on each scriptParsed event. -/
structure ScriptInfo where
  scriptId : String
  url : String
  sourceMapUrl : Option String := none
  startLine : Int := 0
  startColumn : Int := 0
  endLine : Int := 0
  endColumn : Int := 0
  hash : String := ""
  isModule : Option Bool := none
  scriptLength : Option Int := none
deriving DecidableEq, Repr

/-- Configuration fields of the WebSocketClient-based server that the
admission policy and the session cap read. -/
structure ServerConfig where
  allowedHosts : List String
  requireConfirmationForRemote : Bool
  maxConcurrentSessions : Nat
deriving DecidableEq, Repr

/-- DEFAULT_CONFIG values of the relevant fields. -/
def defaultConfig : ServerConfig :=
  { allowedHosts := ["localhost", "127.0.0.1", "::1"]
    requireConfirmationForRemote := true
    maxConcurrentSessions := 10 }

/-- Result of the platform URL constructor: protocol keeps the trailing
colon, e.g. the string ws followed by a colon. -/
structure UrlParts where
  protocol : String
  hostname : String
deriving DecidableEq, Repr

/-- Session record of the WebSocketClient-based manager.  The WebSocket
client handle is external and carries no state the claims read; the Date
values are opaque clock readings. -/
structure WsDebugSession where
  id : String
  name : Option String := none
  targetUrl : String
  state : SessionState
  breakpoints : JsMap WsBreakpointInfo := []
  scripts : JsMap ScriptInfo := []
  pausedState : Option PausedState := none
  createdAt : Nat := 0
  lastActivityAt : Nat := 0
deriving DecidableEq, Repr

/-- URL admission policy of the WebSocketClient-based manager.  The raw
string is the argument of the platform URL constructor; parsed is its
outcome, none when the constructor throws on a malformed URL. -/
def SessionManagerWs.validateTargetUrl (cfg : ServerConfig) (url : String)
    (parsed : Option UrlParts) : Except DebuggerError Unit :=
  match parsed with
  | none =>
      .error ⟨.invalidParameters, "Invalid URL: " ++ url⟩
  | some u =>
      if u.protocol ≠ "ws:" ∧ u.protocol ≠ "wss:" then
        .error ⟨.invalidParameters,
          "URL must use ws:// or wss:// scheme: " ++ url⟩
      else
        let isLocalhost := cfg.allowedHosts.contains u.hostname
        if ¬isLocalhost ∧ cfg.requireConfirmationForRemote then
          .error ⟨.invalidParameters,
            "Remote host \"" ++ u.hostname ++
              "\" not in allowed hosts list. Add to configuration to allow."⟩
        else
          .ok ()

/-- Connect of the WebSocketClient-based manager.  freshId is the uuid
issued for the session, now the clock reading, and wsResult the outcome
of the WebSocket connect call (its error is rethrown verbatim).  The
second component is the session registry after the call. -/
def SessionManagerWs.connect (cfg : ServerConfig)
    (sessions : JsMap WsDebugSession) (targetUrl : String)
    (parsedUrl : Option UrlParts) (sessionName : Option String)
    (freshId : String) (now : Nat) (wsResult : Except DebuggerError Unit) :
    Except DebuggerError WsDebugSession × JsMap WsDebugSession :=
  match SessionManagerWs.validateTargetUrl cfg targetUrl parsedUrl with
  | .error e => (.error e, sessions)
  | .ok _ =>
      if sessions.size ≥ cfg.maxConcurrentSessions then
        (.error ⟨.maxSessionsReached,
          "Maximum concurrent sessions (" ++
            toString cfg.maxConcurrentSessions ++ ") reached"⟩, sessions)
      else
        let session : WsDebugSession :=
          { id := freshId, name := sessionName, targetUrl
            state := .connecting, breakpoints := [], scripts := []
            pausedState := none, createdAt := now, lastActivityAt := now }
        match wsResult with
        | .ok _ =>
            let connected := { session with state := .connected }
            (.ok connected, sessions.set freshId connected)
        | .error e => (.error e, sessions)

/-- Error code of a failed call, none on success. -/
def exceptCode {α : Type} : Except DebuggerError α → Option ErrorCode
  | .error e => some e.code
  | .ok _ => none

/-- Placeholder session used to populate registries in concrete tests. -/
def wsDummySession (i : String) : WsDebugSession :=
  { id := i, targetUrl := "ws://localhost:9229", state := .connected }

/-- Registry holding ten sessions, the default capacity. -/
def tenSessions : JsMap WsDebugSession :=
  (List.range 10).map (fun i => (toString i, wsDummySession (toString i)))

/-- Characterisation of a successful URL validation. -/
theorem validateTargetUrl_ok_iff (cfg : ServerConfig) (url : String)
    (parsed : Option UrlParts) :
    SessionManagerWs.validateTargetUrl cfg url parsed = .ok () ↔
    ∃ u, parsed = some u ∧ (u.protocol = "ws:" ∨ u.protocol = "wss:")
      ∧ (cfg.allowedHosts.contains u.hostname = true
          ∨ cfg.requireConfirmationForRemote = false) := by
  cases parsed with
  | none => simp [SessionManagerWs.validateTargetUrl]
  | some u =>
      simp only [SessionManagerWs.validateTargetUrl]
      by_cases h1 : u.protocol ≠ "ws:" ∧ u.protocol ≠ "wss:"
      · rw [if_pos h1]
        constructor
        · intro hv; exact absurd hv (by simp)
        · rintro ⟨v, hv, hproto, _⟩
          cases Option.some.inj hv
          rcases hproto with h | h
          · exact absurd h h1.1
          · exact absurd h h1.2
      · rw [if_neg h1]
        by_cases h2 : ¬(cfg.allowedHosts.contains u.hostname = true)
            ∧ cfg.requireConfirmationForRemote = true
        · rw [if_pos h2]
          constructor
          · intro hv; exact absurd hv (by simp)
          · rintro ⟨v, hv, _, hhost⟩
            cases Option.some.inj hv
            rcases hhost with h | h
            · exact absurd h h2.1
            · rw [h] at h2; exact absurd h2.2 (by simp)
        · rw [if_neg h2]
          constructor
          · intro _
            refine ⟨u, rfl, ?_, ?_⟩
            · rcases not_and_or.mp h1 with h | h
              · exact Or.inl (not_not.mp h)
              · exact Or.inr (not_not.mp h)
            · rcases not_and_or.mp h2 with h | h
              · exact Or.inl (not_not.mp h)
              · refine Or.inr ?_
                revert h
                cases cfg.requireConfirmationForRemote <;> simp
          · intro _; rfl

/-- Session record of the CDP-based manager as stored in the registry;
the CDP client and source-map manager handles are external. -/
structure CdpManagedSession where
  id : String
  name : Option String := none
  targetUrl : String
  state : SessionState
  breakpoints : JsMap BreakpointInfo := []
  pausedState : Option PausedState := none
  createdAt : Nat := 0
deriving DecidableEq, Repr

/-- createSession of the CDP-based manager: no URL validation of any
kind; the URL is handed to the CDP client, whose outcome is
connectResult (its message rides on the error).  A failure is wrapped as
CONNECTION_FAILED with no session installed; a success installs the
session regardless of scheme or host.  The second component is the
registry after the call. -/
def SessionManagerCdp.createSession (sessions : JsMap CdpManagedSession)
    (targetUrl : String) (name : Option String) (freshId : String)
    (now : Nat) (connectResult : Except String Unit) :
    Except DebuggerError String × JsMap CdpManagedSession :=
  let session : CdpManagedSession :=
    { id := freshId, name, targetUrl, state := .connecting
      breakpoints := [], pausedState := none, createdAt := now }
  match connectResult with
  | .ok _ =>
      let connected := { session with state := .connected }
      (.ok freshId, sessions.set freshId connected)
  | .error msg =>
      (.error ⟨.connectionFailed,
        "Failed to connect to " ++ targetUrl ++ ": " ++ msg⟩, sessions)

/-- Counterexample to claim C1 as stated: the CDP-based createSession
admits a remote non-ws URL outright and installs the session, and a
malformed URL fails with CONNECTION_FAILED, not INVALID_PARAMETERS. -/
theorem c1_counterexample :
    SessionManagerCdp.createSession [] "http://remote.example:9229/x" none
        "sid-8" 0 (.ok ())
      = (.ok "sid-8", [("sid-8", ⟨"sid-8", none,
          "http://remote.example:9229/x", .connected, [], none, 0⟩)])
    ∧ exceptCode (SessionManagerCdp.createSession [] "not-a-url" none
        "sid-8" 0 (.error "invalid URL")).1 = some .connectionFailed
    ∧ some ErrorCode.connectionFailed ≠ some ErrorCode.invalidParameters :=
  ⟨rfl, rfl, by decide⟩

/-- Claim C1 as amended: in the WebSocketClient-based manager a target
URL is admitted only when its scheme is ws or wss and its host is in
the configured allow-list (default localhost, 127.0.0.1, ::1) or the
configuration waives remote confirmation, any other scheme or malformed
URL failing INVALID_PARAMETERS with no session installed; the CDP-based
manager performs no URL admission at all: any connect failure is
reported as CONNECTION_FAILED with no session installed, and a
successful connect installs the session regardless of scheme or
host. -/
theorem c1_url_admission (cfg : ServerConfig)
    (sessions : JsMap WsDebugSession) (targetUrl : String)
    (parsedUrl : Option UrlParts) (sessionName : Option String)
    (freshId : String) (now : Nat) (wsResult : Except DebuggerError Unit)
    (cdpSessions : JsMap CdpManagedSession) (cdpUrl : String)
    (cdpName : Option String) (cdpId : String) (cdpNow : Nat)
    (connectResult : Except String Unit) :
    ((parsedUrl = none ∨
        ∃ u, parsedUrl = some u ∧ u.protocol ≠ "ws:" ∧ u.protocol ≠ "wss:") →
      ∃ msg, SessionManagerWs.connect cfg sessions targetUrl parsedUrl
          sessionName freshId now wsResult =
        (.error ⟨.invalidParameters, msg⟩, sessions))
    ∧ (∀ s regNew, SessionManagerWs.connect cfg sessions targetUrl parsedUrl
          sessionName freshId now wsResult = (.ok s, regNew) →
        ∃ u, parsedUrl = some u ∧ (u.protocol = "ws:" ∨ u.protocol = "wss:")
          ∧ (cfg.allowedHosts.contains u.hostname = true
              ∨ cfg.requireConfirmationForRemote = false))
    ∧ defaultConfig.allowedHosts = ["localhost", "127.0.0.1", "::1"]
    ∧ defaultConfig.requireConfirmationForRemote = true
    ∧ (∀ msg, connectResult = .error msg →
        SessionManagerCdp.createSession cdpSessions cdpUrl cdpName cdpId
            cdpNow connectResult =
          (.error ⟨.connectionFailed,
            "Failed to connect to " ++ cdpUrl ++ ": " ++ msg⟩, cdpSessions))
    ∧ (connectResult = .ok () →
        SessionManagerCdp.createSession cdpSessions cdpUrl cdpName cdpId
            cdpNow connectResult =
          (.ok cdpId, cdpSessions.set cdpId
            { id := cdpId, name := cdpName, targetUrl := cdpUrl
              state := .connected, breakpoints := []
              pausedState := none, createdAt := cdpNow })) := by
  refine ⟨?_, ?_, rfl, rfl, ?_, ?_⟩
  · rintro (rfl | ⟨u, rfl, h1, h2⟩)
    · exact ⟨_, rfl⟩
    · simp only [SessionManagerWs.connect, SessionManagerWs.validateTargetUrl]
      rw [if_pos ⟨h1, h2⟩]
      exact ⟨_, rfl⟩
  · intro s regNew h
    have hv : SessionManagerWs.validateTargetUrl cfg targetUrl parsedUrl
        = .ok () := by
      cases hv : SessionManagerWs.validateTargetUrl cfg targetUrl parsedUrl with
      | error e =>
          unfold SessionManagerWs.connect at h
          rw [hv] at h
          simp at h
      | ok a => cases a; rfl
    exact (validateTargetUrl_ok_iff cfg targetUrl parsedUrl).mp hv
  · intro msg h
    simp [SessionManagerCdp.createSession, h]
  · intro h
    simp [SessionManagerCdp.createSession, h]

/-- Witness for C1 as amended: a malformed URL is rejected by the Ws
manager with nothing installed, while the CDP manager installs a session
for a remote http URL once the client connects. -/
theorem c1_url_admission_witness :
    (∃ msg, SessionManagerWs.connect defaultConfig [] "not-a-url" none none
        "sid-1" 0 (.ok ()) = (.error ⟨.invalidParameters, msg⟩, []))
    ∧ SessionManagerCdp.createSession [] "http://remote.example:9229/x" none
        "sid-9" 0 (.ok ())
      = (.ok "sid-9", [("sid-9", ⟨"sid-9", none,
          "http://remote.example:9229/x", .connected, [], none, 0⟩)]) := by
  have h := c1_url_admission defaultConfig [] "not-a-url" none none "sid-1" 0
    (.ok ()) [] "http://remote.example:9229/x" none "sid-9" 0 (.ok ())
  exact ⟨h.1 (Or.inl rfl), (h.2.2.2.2.2 rfl).trans (by rfl)⟩

/-- Counterexample to claim C2 as stated: with the registry at the
configured maximum, a call carrying a malformed URL fails with
INVALID_PARAMETERS, not MAX_SESSIONS_REACHED, because the URL check
runs before the capacity check. -/
theorem c2_counterexample :
    defaultConfig.maxConcurrentSessions ≤ JsMap.size tenSessions
    ∧ exceptCode (SessionManagerWs.connect defaultConfig tenSessions
        "not-a-url" none none "sid-2" 0 (.ok ())).1 =
        some .invalidParameters
    ∧ some ErrorCode.invalidParameters ≠ some ErrorCode.maxSessionsReached :=
  ⟨by decide, rfl, by decide⟩

/-- Claim C2 as amended: when the target URL passes validation and the
registry has reached the configured maximum concurrent session count,
session creation fails with MAX_SESSIONS_REACHED and the registry is
unchanged. -/
theorem c2_max_sessions (cfg : ServerConfig)
    (sessions : JsMap WsDebugSession) (targetUrl : String)
    (parsedUrl : Option UrlParts) (sessionName : Option String)
    (freshId : String) (now : Nat) (wsResult : Except DebuggerError Unit)
    (hok : SessionManagerWs.validateTargetUrl cfg targetUrl parsedUrl = .ok ())
    (hcap : cfg.maxConcurrentSessions ≤ sessions.size) :
    SessionManagerWs.connect cfg sessions targetUrl parsedUrl sessionName
        freshId now wsResult =
      (.error ⟨.maxSessionsReached,
        "Maximum concurrent sessions (" ++
          toString cfg.maxConcurrentSessions ++ ") reached"⟩, sessions) := by
  unfold SessionManagerWs.connect
  rw [hok]
  rw [if_pos hcap]

/-- Witness for C2 as amended: capacity zero, valid local URL. -/
theorem c2_max_sessions_witness :
    SessionManagerWs.connect ⟨["localhost"], true, 0⟩ [] "ws://localhost:9229/t"
        (some ⟨"ws:", "localhost"⟩) none "sid-3" 0 (.ok ()) =
      (.error ⟨.maxSessionsReached,
        "Maximum concurrent sessions (" ++
          toString (⟨["localhost"], true, 0⟩ : ServerConfig).maxConcurrentSessions
          ++ ") reached"⟩, []) :=
  c2_max_sessions ⟨["localhost"], true, 0⟩ [] "ws://localhost:9229/t"
    (some ⟨"ws:", "localhost"⟩) none "sid-3" 0 (.ok ()) (by rfl) (by decide)

/-- Exception details attached to an evaluation response. -/
structure ExceptionDetails where
  text : String
  lineNumber : Int := 0
  columnNumber : Int := 0
deriving DecidableEq, Repr

/-- Response of Debugger.evaluateOnCallFrame or Runtime.evaluate. -/
structure EvalResponse where
  result : RemoteObject
  exceptionDetails : Option ExceptionDetails := none
deriving DecidableEq, Repr

/-- CallArgument as assembled by setVariableValue: at most one of the
optional protocol fields is set, or none at all. -/
inductive CallArgument where
  | fromObjectId (objectId : String)
  | fromValue (value : Jv)
  | fromUnserializable (unserializable : String)
  | emptyArg
deriving DecidableEq, Repr

/-- Fallthrough of the CallArgument cascade once the object id test has
failed: a present value key wins, then a truthy unserializable form. -/
def SessionManagerCdp.callArgumentAfterObjectId (value : Option Jv)
    (unser : Option String) : CallArgument :=
  match value with
  | some v => .fromValue v
  | none =>
      match unser with
      | some u => if u = "" then .emptyArg else .fromUnserializable u
      | none => .emptyArg

/-- CallArgument construction of the CDP session manager: truthy object
id first, then a present value key, then a truthy unserializable form,
else the empty argument. -/
def SessionManagerCdp.buildCallArgument (r : RemoteObject) : CallArgument :=
  match r.objectId with
  | some oid =>
      if oid = "" then
        SessionManagerCdp.callArgumentAfterObjectId r.value r.unserializableValue
      else .fromObjectId oid
  | none => SessionManagerCdp.callArgumentAfterObjectId r.value r.unserializableValue

/-- Claim-stated CallArgument construction, following the words of the
specification: object id, else unserializable form, else value.  Used
only to compare against buildCallArgument. -/
def claimCallArgument (r : RemoteObject) : CallArgument :=
  match r.objectId with
  | some oid => .fromObjectId oid
  | none =>
      match r.unserializableValue with
      | some u => .fromUnserializable u
      | none => .fromValue (r.value.getD Jv.undef)

/-- Parameters of the first-phase evaluateOnCallFrame command. -/
structure EvalOnFrameCmd where
  callFrameId : String
  expression : String
  returnByValue : Bool
deriving DecidableEq, Repr

/-- Parameters of the Debugger.setVariableValue command. -/
structure SetVarCmd where
  scopeNumber : Int
  variableName : String
  newValue : CallArgument
  callFrameId : String
deriving DecidableEq, Repr

/-- Observable outcome of setVariableValue: which commands were issued
and with which parameters, or which error aborted the operation. -/
inductive SetVarOutcome where
  | notPaused (e : DebuggerError)
  | evalFailed (evalCmd : EvalOnFrameCmd) (e : DebuggerError)
  | issued (evalCmd : EvalOnFrameCmd) (setCmd : SetVarCmd)
deriving DecidableEq, Repr

/-- setVariableValue of the CDP session manager.  evalResp is the
response of the first-phase evaluation returned by the target. -/
def SessionManagerCdp.setVariableValue (sessionId : String)
    (state : SessionState) (pausedState : Option PausedState)
    (callFrameId : String) (scopeIndex : Int) (variableName : String)
    (newValue : String) (evalResp : EvalResponse) : SetVarOutcome :=
  if state ≠ .paused ∨ pausedState = none then
    .notPaused ⟨.sessionInvalidState,
      "Session " ++ sessionId ++ " is not paused"⟩
  else
    let evalCmd : EvalOnFrameCmd := ⟨callFrameId, newValue, false⟩
    match evalResp.exceptionDetails with
    | some ed =>
        .evalFailed evalCmd ⟨.protocolError,
          "Failed to evaluate new value: " ++ ed.text⟩
    | none =>
        .issued evalCmd ⟨scopeIndex, variableName,
          SessionManagerCdp.buildCallArgument evalResp.result, callFrameId⟩

/-- setVariableValue of the WebSocketClient-based manager: the first
phase evaluates with returnByValue false, but the response is not
inspected for exception details; the second command is always issued
with a value argument built from the value field of the result (the
value key of the sent argument is always assigned, so an absent result
value travels as undefined). -/
def SessionManagerWs.setVariableValue (state : SessionState)
    (callFrameId : String) (scopeIndex : Int) (variableName : String)
    (newValue : String) (evalResp : EvalResponse) : SetVarOutcome :=
  if state ≠ .paused then
    .notPaused ⟨.sessionInvalidState,
      "Operation not allowed in state. Required: paused"⟩
  else
    .issued ⟨callFrameId, newValue, false⟩
      ⟨scopeIndex, variableName,
        .fromValue (evalResp.result.value.getD Jv.undef), callFrameId⟩

/-- Counterexample to claim C3 as stated: on a remote object carrying
both a present value key and an unserializable form (and no object id),
the code sends the value, while the claim prescribes the unserializable
form. -/
theorem c3_counterexample :
    SessionManagerCdp.setVariableValue "sid" .paused
        (some ⟨"breakpoint", [], none, none⟩) "frame-1" 0 "x" "Infinity"
        ⟨⟨"number", none, some (.vNum 0), some "Infinity", none⟩, none⟩
      = .issued ⟨"frame-1", "Infinity", false⟩
          ⟨0, "x", .fromValue (.vNum 0), "frame-1"⟩
    ∧ claimCallArgument ⟨"number", none, some (.vNum 0), some "Infinity", none⟩
      = .fromUnserializable "Infinity"
    ∧ CallArgument.fromValue (.vNum 0) ≠ .fromUnserializable "Infinity" :=
  ⟨rfl, rfl, by decide⟩

/-- Claim C3 as amended: in the CDP-based manager, on a paused session
the first phase evaluates with returnByValue false; exception details
abort the operation with a protocol error carrying the exception text
and no setVariableValue command; otherwise the argument is the object
id when truthy, else the value when the value key is present, else the
unserializable form when truthy, else the empty argument.  The
WebSocketClient-based manager evaluates the same way but inspects no
exception details and always issues the second command with the value
field of the result. -/
theorem c3_set_variable_value (sessionId : String) (ps : PausedState)
    (callFrameId : String) (scopeIndex : Int) (variableName : String)
    (newValueExpr : String) (evalResp : EvalResponse) :
    ((∀ ed, evalResp.exceptionDetails = some ed →
      SessionManagerCdp.setVariableValue sessionId .paused (some ps)
          callFrameId scopeIndex variableName newValueExpr evalResp
        = .evalFailed ⟨callFrameId, newValueExpr, false⟩
            ⟨.protocolError, "Failed to evaluate new value: " ++ ed.text⟩)
    ∧ (evalResp.exceptionDetails = none →
      SessionManagerCdp.setVariableValue sessionId .paused (some ps)
          callFrameId scopeIndex variableName newValueExpr evalResp
        = .issued ⟨callFrameId, newValueExpr, false⟩
            ⟨scopeIndex, variableName,
              SessionManagerCdp.buildCallArgument evalResp.result,
              callFrameId⟩)
    ∧ (∀ r : RemoteObject, ∀ oid, r.objectId = some oid → oid ≠ "" →
        SessionManagerCdp.buildCallArgument r = .fromObjectId oid)
    ∧ (∀ r : RemoteObject, ∀ v, truthyStr? r.objectId = false →
        r.value = some v →
        SessionManagerCdp.buildCallArgument r = .fromValue v)
    ∧ (∀ r : RemoteObject, ∀ u, truthyStr? r.objectId = false →
        r.value = none → r.unserializableValue = some u → u ≠ "" →
        SessionManagerCdp.buildCallArgument r = .fromUnserializable u)
    ∧ (∀ r : RemoteObject, truthyStr? r.objectId = false →
        r.value = none → truthyStr? r.unserializableValue = false →
        SessionManagerCdp.buildCallArgument r = .emptyArg)
    ∧ (∀ resp : EvalResponse,
        SessionManagerWs.setVariableValue .paused callFrameId scopeIndex
            variableName newValueExpr resp
          = .issued ⟨callFrameId, newValueExpr, false⟩
              ⟨scopeIndex, variableName,
                .fromValue (resp.result.value.getD Jv.undef),
                callFrameId⟩)) := by
  refine ⟨?_, ?_, ?_, ?_, ?_, ?_, ?_⟩
  · intro ed h
    simp [SessionManagerCdp.setVariableValue, h]
  · intro h
    simp [SessionManagerCdp.setVariableValue, h]
  · intro r oid h hne
    simp [SessionManagerCdp.buildCallArgument, h, hne]
  · intro r v ht hv
    cases ho : r.objectId with
    | none =>
        simp [SessionManagerCdp.buildCallArgument, ho,
          SessionManagerCdp.callArgumentAfterObjectId, hv]
    | some oid =>
        have hoe : oid = "" := by
          rw [ho] at ht
          simpa [truthyStr?] using ht
        simp [SessionManagerCdp.buildCallArgument, ho, hoe,
          SessionManagerCdp.callArgumentAfterObjectId, hv]
  · intro r u ht hv hu hne
    cases ho : r.objectId with
    | none =>
        simp [SessionManagerCdp.buildCallArgument, ho,
          SessionManagerCdp.callArgumentAfterObjectId, hv, hu, hne]
    | some oid =>
        have hoe : oid = "" := by
          rw [ho] at ht
          simpa [truthyStr?] using ht
        simp [SessionManagerCdp.buildCallArgument, ho, hoe,
          SessionManagerCdp.callArgumentAfterObjectId, hv, hu, hne]
  · intro r ht hv hu
    have hu2 : r.unserializableValue = none ∨ r.unserializableValue = some "" := by
      cases h : r.unserializableValue with
      | none => exact Or.inl rfl
      | some u =>
          rw [h] at hu
          simp [truthyStr?] at hu
          exact Or.inr (by rw [hu])
    cases ho : r.objectId with
    | none =>
        rcases hu2 with h | h <;>
          simp [SessionManagerCdp.buildCallArgument, ho,
            SessionManagerCdp.callArgumentAfterObjectId, hv, h]
    | some oid =>
        have hoe : oid = "" := by
          rw [ho] at ht
          simpa [truthyStr?] using ht
        rcases hu2 with h | h <;>
          simp [SessionManagerCdp.buildCallArgument, ho, hoe,
            SessionManagerCdp.callArgumentAfterObjectId, hv, h]
  · intro resp
    simp [SessionManagerWs.setVariableValue]

/-- Witness for C3 as amended: an exception detail aborts the CDP
operation before the second phase, while the Ws manager issues the
second command despite the same exception detail. -/
theorem c3_set_variable_value_witness :
    SessionManagerCdp.setVariableValue "sid" .paused
        (some ⟨"breakpoint", [], none, none⟩) "frame-1" 0 "x" "boom"
        ⟨⟨"undefined", none, none, none, none⟩, some ⟨"ReferenceError", 1, 0⟩⟩
      = .evalFailed ⟨"frame-1", "boom", false⟩
          ⟨.protocolError,
            "Failed to evaluate new value: " ++ "ReferenceError"⟩
    ∧ SessionManagerWs.setVariableValue .paused "frame-1" 0 "x" "boom"
        ⟨⟨"undefined", none, none, none, none⟩, some ⟨"ReferenceError", 1, 0⟩⟩
      = .issued ⟨"frame-1", "boom", false⟩
          ⟨0, "x", .fromValue Jv.undef, "frame-1"⟩ := by
  have h := c3_set_variable_value "sid" ⟨"breakpoint", [], none, none⟩
    "frame-1" 0 "x" "boom" ⟨⟨"undefined", none, none, none, none⟩,
      some ⟨"ReferenceError", 1, 0⟩⟩
  exact ⟨h.1 ⟨"ReferenceError", 1, 0⟩ rfl,
    (h.2.2.2.2.2.2 ⟨⟨"undefined", none, none, none, none⟩,
      some ⟨"ReferenceError", 1, 0⟩⟩).trans (by rfl)⟩

/-- JavaScript array indexing: a negative or out-of-range index yields
undefined. -/
def jsIndex {α : Type} (l : List α) (i : Int) : Option α :=
  if i < 0 then none else l[i.toNat]?

/-- Property descriptor as returned by Runtime.getProperties.  The value
is absent on accessor entries that carry only a getter or setter. -/
structure PropertyDescriptor where
  name : String
  value : Option RemoteObject := none
  writable : Option Bool := none
  configurable : Option Bool := none
  enumerable : Option Bool := none
deriving DecidableEq, Repr

/-- Scope variable pair of the WebSocketClient-based manager. -/
structure ScopeVariable where
  name : String
  value : RemoteObject
deriving DecidableEq, Repr

/-- getScopeVariables of the CDP session manager: after the frame and
scope lookups succeed it returns the fetched property descriptors
unchanged.  props is the Runtime.getProperties response. -/
def SessionManagerCdp.getScopeVariables (sessionId : String)
    (state : SessionState) (pausedState : Option PausedState)
    (callFrameId : String) (scopeIndex : Int)
    (props : List PropertyDescriptor) :
    Except DebuggerError (List PropertyDescriptor) :=
  if state ≠ .paused ∨ pausedState = none then
    .error ⟨.sessionInvalidState,
      "Session " ++ sessionId ++ " is not paused"⟩
  else
    let callFrame : Option CallFrame :=
      match pausedState with
      | none => none
      | some ps => ps.callFrames.find? (fun f => f.callFrameId == callFrameId)
    match callFrame with
    | none =>
        .error ⟨.invalidParameters,
          "Call frame " ++ callFrameId ++ " not found"⟩
    | some frame =>
        match jsIndex frame.scopeChain scopeIndex with
        | none =>
            .error ⟨.invalidParameters,
              "Scope at index " ++ toString scopeIndex ++
                " not found or has no object ID"⟩
        | some sc =>
            if truthyStr? sc.object.objectId = false then
              .error ⟨.invalidParameters,
                "Scope at index " ++ toString scopeIndex ++
                  " not found or has no object ID"⟩
            else .ok props

/-- getScopeVariables of the WebSocketClient-based manager: filters the
fetched entries to those with a defined value and keeps name and value.
The range test of the source (negative or beyond the chain) is exactly
the failure of the indexing. -/
def SessionManagerWs.getScopeVariables (state : SessionState)
    (pausedState : Option PausedState) (callFrameId : String)
    (scopeIndex : Int) (props : List PropertyDescriptor) :
    Except DebuggerError (List ScopeVariable) :=
  if state ≠ .paused then
    .error ⟨.sessionInvalidState,
      "Operation not allowed in state. Required: paused"⟩
  else
    match pausedState with
    | none =>
        .error ⟨.sessionInvalidState,
          "Session is not paused; cannot retrieve scope variables"⟩
    | some ps =>
        match ps.callFrames.find? (fun f => f.callFrameId == callFrameId) with
        | none =>
            .error ⟨.invalidParameters,
              "Call frame not found: " ++ callFrameId⟩
        | some frame =>
            match jsIndex frame.scopeChain scopeIndex with
            | none =>
                .error ⟨.invalidParameters,
                  "Invalid scope index: " ++ toString scopeIndex⟩
            | some sc =>
                if truthyStr? sc.object.objectId = false then .ok []
                else
                  .ok (props.filterMap
                    (fun p => p.value.map (fun v => ScopeVariable.mk p.name v)))

/-- Scope entry used by the concrete tests. -/
def scopeObj : Scope := ⟨"local", ⟨"object", some "obj-1", none, none, none⟩⟩

/-- Call frame used by the concrete tests. -/
def frame0 : CallFrame :=
  ⟨"frame-1", "test", ⟨"script-1", 10, some 0⟩, [scopeObj],
    ⟨"object", none, none, none, none⟩⟩

/-- Paused snapshot used by the concrete tests. -/
def ps0 : PausedState := ⟨"breakpoint", [frame0], none, none⟩

/-- Counterexample to claim C4 as stated: the CDP session manager
returns the fetched descriptors unfiltered, so an accessor entry without
a value appears in the result. -/
theorem c4_counterexample :
    SessionManagerCdp.getScopeVariables "sid" .paused (some ps0) "frame-1" 0
        [⟨"x", none, none, none, none⟩]
      = .ok [⟨"x", none, none, none, none⟩]
    ∧ (⟨"x", none, none, none, none⟩ : PropertyDescriptor).value = none :=
  ⟨rfl, rfl⟩

/-- Claim C4 as amended: on a paused session with the named frame and a
scope whose object id is truthy, the WebSocketClient-based manager
returns exactly the name and value pairs of the descriptors carrying a
value (accessors without a value are skipped), while the CDP-based
manager returns every fetched descriptor unchanged, including those
without a value. -/
theorem c4_scope_variables (sessionId : String) (ps : PausedState)
    (callFrameId : String) (scopeIndex : Int) (frame : CallFrame)
    (sc : Scope) (props : List PropertyDescriptor)
    (hframe : ps.callFrames.find? (fun f => f.callFrameId == callFrameId)
      = some frame)
    (hscope : jsIndex frame.scopeChain scopeIndex = some sc)
    (hobj : truthyStr? sc.object.objectId = true) :
    SessionManagerCdp.getScopeVariables sessionId .paused (some ps)
        callFrameId scopeIndex props = .ok props
    ∧ SessionManagerWs.getScopeVariables .paused (some ps) callFrameId
        scopeIndex props
      = .ok (props.filterMap
          (fun p => p.value.map (fun v => ScopeVariable.mk p.name v))) := by
  constructor
  · simp [SessionManagerCdp.getScopeVariables, hframe, hscope, hobj]
  · simp [SessionManagerWs.getScopeVariables, hframe, hscope, hobj]

/-- Witness for C4 as amended at a two-entry property fetch: the data
property survives filtering, the accessor is dropped by the Ws manager
and kept by the CDP manager. -/
theorem c4_scope_variables_witness :
    SessionManagerCdp.getScopeVariables "sid" .paused (some ps0) "frame-1" 0
        [⟨"x", some ⟨"number", none, some (.vNum 42), none, none⟩,
            none, none, none⟩,
          ⟨"y", none, none, none, none⟩]
      = .ok [⟨"x", some ⟨"number", none, some (.vNum 42), none, none⟩,
            none, none, none⟩,
          ⟨"y", none, none, none, none⟩]
    ∧ SessionManagerWs.getScopeVariables .paused (some ps0) "frame-1" 0
        [⟨"x", some ⟨"number", none, some (.vNum 42), none, none⟩,
            none, none, none⟩,
          ⟨"y", none, none, none, none⟩]
      = .ok [⟨"x", ⟨"number", none, some (.vNum 42), none, none⟩⟩] := by
  have h := c4_scope_variables "sid" ps0 "frame-1" 0 frame0 scopeObj
    [⟨"x", some ⟨"number", none, some (.vNum 42), none, none⟩,
        none, none, none⟩,
      ⟨"y", none, none, none, none⟩] (by rfl) (by rfl) (by rfl)
  exact ⟨h.1, h.2.trans (by rfl)⟩

/-- Lookup after set at the same key. -/
theorem JsMap.get?_set_self {α : Type} (m : JsMap α) (k : String) (v : α) :
    (m.set k v).get? k = some v := by
  induction m with
  | nil => simp [JsMap.set, JsMap.get?]
  | cons p rest ih =>
      by_cases h : p.1 = k
      · simp [JsMap.set, JsMap.get?, h]
      · simp [JsMap.set, JsMap.get?, h, ih]

/-- breakpointResolved handler of the CDP session manager: append the
resolved location, with the column normalised to 0 when absent, to an
existing record; leave the table unchanged otherwise. -/
def SessionManagerCdp.onBreakpointResolved (breakpoints : JsMap BreakpointInfo)
    (breakpointId : String) (loc : Location) : JsMap BreakpointInfo :=
  match breakpoints.get? breakpointId with
  | some bp =>
      breakpoints.set breakpointId
        { bp with resolvedLocations := bp.resolvedLocations ++
            [⟨loc.scriptId, loc.lineNumber, loc.columnNumber.getD 0⟩] }
  | none => breakpoints

/-- breakpointResolved handler of the WebSocketClient-based manager:
replace the location list of an existing record with the single event
location; leave the table unchanged otherwise. -/
def SessionManagerWs.handleBreakpointResolved
    (breakpoints : JsMap WsBreakpointInfo) (breakpointId : String)
    (loc : ResolvedLocation) : JsMap WsBreakpointInfo :=
  match breakpoints.get? breakpointId with
  | some bp => breakpoints.set breakpointId { bp with locations := [loc] }
  | none => breakpoints

/-- Counterexample to claim C5 as stated: the WebSocketClient-based
handler overwrites the resolved list, so the previously resolved
location is not preserved. -/
theorem c5_counterexample :
    SessionManagerWs.handleBreakpointResolved
        [("bp-1", ⟨"bp-1", "file:///a.js", 10, none, none, true,
            [⟨"s-1", 10, 0⟩]⟩)] "bp-1" ⟨"s-1", 10, 4⟩
      = [("bp-1", ⟨"bp-1", "file:///a.js", 10, none, none, true,
            [⟨"s-1", 10, 4⟩]⟩)]
    ∧ ([⟨"s-1", 10, 4⟩] : List ResolvedLocation)
        ≠ [⟨"s-1", 10, 0⟩, ⟨"s-1", 10, 4⟩] :=
  ⟨rfl, by decide⟩

/-- Claim C5 as amended: on a breakpointResolved event the CDP session
manager appends the event location to an existing record, preserving the
previously resolved locations, and leaves the table unchanged without
error when no record exists; the WebSocketClient-based manager instead
replaces the location list of an existing record with the single event
location, and likewise leaves the table unchanged when no record
exists. -/
theorem c5_breakpoint_resolved (cdpTbl : JsMap BreakpointInfo)
    (wsTbl : JsMap WsBreakpointInfo) (bid : String) (loc : Location)
    (wloc : ResolvedLocation) :
    (cdpTbl.get? bid = none →
      SessionManagerCdp.onBreakpointResolved cdpTbl bid loc = cdpTbl)
    ∧ (∀ bp, cdpTbl.get? bid = some bp →
        (SessionManagerCdp.onBreakpointResolved cdpTbl bid loc).get? bid =
          some { bp with resolvedLocations := bp.resolvedLocations ++
              [⟨loc.scriptId, loc.lineNumber, loc.columnNumber.getD 0⟩] })
    ∧ (wsTbl.get? bid = none →
        SessionManagerWs.handleBreakpointResolved wsTbl bid wloc = wsTbl)
    ∧ (∀ bp, wsTbl.get? bid = some bp →
        (SessionManagerWs.handleBreakpointResolved wsTbl bid wloc).get? bid =
          some { bp with locations := [wloc] }) := by
  refine ⟨?_, ?_, ?_, ?_⟩
  · intro h; simp [SessionManagerCdp.onBreakpointResolved, h]
  · intro bp h
    simp [SessionManagerCdp.onBreakpointResolved, h, JsMap.get?_set_self]
  · intro h; simp [SessionManagerWs.handleBreakpointResolved, h]
  · intro bp h
    simp [SessionManagerWs.handleBreakpointResolved, h, JsMap.get?_set_self]

/-- Witness for C5 as amended: appending preserves an earlier resolve in
the CDP table, and an event for an unknown id leaves an empty table
unchanged. -/
theorem c5_breakpoint_resolved_witness :
    (SessionManagerCdp.onBreakpointResolved
        [("bp-1", ⟨"bp-1", "file:///a.js", 10, none, none, true,
            [⟨"s-1", 10, 0⟩]⟩)] "bp-1" ⟨"s-1", 10, some 4⟩).get? "bp-1"
      = some ⟨"bp-1", "file:///a.js", 10, none, none, true,
          [⟨"s-1", 10, 0⟩, ⟨"s-1", 10, 4⟩]⟩
    ∧ SessionManagerCdp.onBreakpointResolved [] "bp-9" ⟨"s-1", 10, some 4⟩
      = [] := by
  have h1 := (c5_breakpoint_resolved
    [("bp-1", ⟨"bp-1", "file:///a.js", 10, none, none, true,
        [⟨"s-1", 10, 0⟩]⟩)] [] "bp-1" ⟨"s-1", 10, some 4⟩
    ⟨"s-1", 10, 4⟩).2.1
    ⟨"bp-1", "file:///a.js", 10, none, none, true, [⟨"s-1", 10, 0⟩]⟩ rfl
  have h2 := (c5_breakpoint_resolved [] [] "bp-9" ⟨"s-1", 10, some 4⟩
    ⟨"s-1", 10, 4⟩).1 rfl
  exact ⟨h1.trans (by rfl), h2⟩

/-- State of one CDP session that the event handlers and operations
mutate: lifecycle state, paused snapshot, breakpoint table, script
table. -/
structure CdpSession where
  state : SessionState
  pausedState : Option PausedState := none
  breakpoints : JsMap BreakpointInfo := []
  scripts : JsMap ScriptInfo := []
deriving DecidableEq, Repr

/-- Response of Debugger.setBreakpointByUrl. -/
structure SetBpResponse where
  breakpointId : String
  locations : List Location
deriving DecidableEq, Repr

/-- One step of a session: a received event or a state-mutating
operation.  Target responses ride on the operation steps; a none
response models a command the target failed. -/
inductive SessStep where
  | evPaused (ps : PausedState)
  | evResumed
  | evScriptParsed (si : ScriptInfo)
  | evBreakpointResolved (bid : String) (loc : Location)
  | evDisconnected
  | opResume
  | opSetBreakpoint (url : String) (line : Int) (col : Option Int)
      (cond : Option String) (resp : Option SetBpResponse)
  | opRemoveBreakpoint (bid : String) (cmdOk : Bool)
deriving DecidableEq, Repr

/-- Breakpoint record stored by setBreakpoint from the requested
location and the target response. -/
def SessionManagerCdp.mkBreakpointInfo (url : String) (line : Int)
    (col : Option Int) (cond : Option String) (resp : SetBpResponse) :
    BreakpointInfo :=
  { id := resp.breakpointId, url, lineNumber := line, columnNumber := col
    condition := cond, enabled := true
    resolvedLocations := resp.locations.map
      (fun l => ⟨l.scriptId, l.lineNumber, l.columnNumber.getD 0⟩) }

/-- Transition function of the CDP session: the event handlers of
setupSessionEventHandlers together with the committed mutations of a
completed resume, setBreakpoint or removeBreakpoint operation.
Operations that throw leave the session unchanged.  Every breakpoint
table mutation of the source is a single synchronous segment, so this
machine is exact for the breakpoint table; the session state writes
that follow an await are refined into separate steps by the CdpWrite
machine below. -/
def SessionManagerCdp.step (s : CdpSession) : SessStep → CdpSession
  | .evPaused ps => { s with state := .paused, pausedState := some ps }
  | .evResumed => { s with state := .running, pausedState := none }
  | .evScriptParsed si => { s with scripts := s.scripts.set si.scriptId si }
  | .evBreakpointResolved bid loc =>
      { s with breakpoints :=
          SessionManagerCdp.onBreakpointResolved s.breakpoints bid loc }
  | .evDisconnected => { s with state := .disconnected, pausedState := none }
  | .opResume =>
      if s.state = .paused then s
      else if s.state = .connected then { s with state := .running }
      else s
  | .opSetBreakpoint url line col cond resp =>
      match resp with
      | some r =>
          let info := SessionManagerCdp.mkBreakpointInfo url line col cond r
          { s with breakpoints := s.breakpoints.set r.breakpointId info }
      | none => s
  | .opRemoveBreakpoint bid cmdOk =>
      if s.breakpoints.has bid && cmdOk then
        { s with breakpoints := s.breakpoints.delete bid }
      else s

/-- Session as installed by createSession after a connect in which no
event interleaved the handshake.  The CdpWrite machine below starts
earlier, at the CONNECTING record whose handlers are already armed. -/
def SessionManagerCdp.initSession : CdpSession := { state := .connected }

/-- Run a sequence of steps. -/
def SessionManagerCdp.run (s : CdpSession) (steps : List SessStep) :
    CdpSession :=
  steps.foldl SessionManagerCdp.step s

/-- listBreakpoints projection: the values of the breakpoint table. -/
def SessionManagerCdp.listBreakpoints (s : CdpSession) : List BreakpointInfo :=
  s.breakpoints.values

/-- Atomic mutations of one session in the CDP-based manager, as the
single-threaded runtime interleaves them: the five event handlers (each
a synchronous callback), the committed breakpoint-table writes, and the
two session-state assignments that run after an await: state CONNECTED
assigned in createSession after the awaited client connect, and state
RUNNING assigned in the resume CONNECTED branch after the awaited
runIfWaitingForDebugger.  A paused event delivered during either await
is a separate earlier step, so these assignments can overwrite it. -/
inductive CdpWrite where
  | evPaused (ps : PausedState)
  | evResumed
  | evScriptParsed (si : ScriptInfo)
  | evBreakpointResolved (bid : String) (loc : Location)
  | evDisconnected
  | assignConnected
  | assignRunning
  | storeBreakpoint (url : String) (line : Int) (col : Option Int)
      (cond : Option String) (resp : Option SetBpResponse)
  | commitRemoveBreakpoint (bid : String) (cmdOk : Bool)
deriving DecidableEq, Repr

/-- Effect of one atomic mutation.  The two state assignments write only
the state field, leaving an installed snapshot in place. -/
def SessionManagerCdp.write (s : CdpSession) : CdpWrite → CdpSession
  | .evPaused ps => { s with state := .paused, pausedState := some ps }
  | .evResumed => { s with state := .running, pausedState := none }
  | .evScriptParsed si => { s with scripts := s.scripts.set si.scriptId si }
  | .evBreakpointResolved bid loc =>
      { s with breakpoints :=
          SessionManagerCdp.onBreakpointResolved s.breakpoints bid loc }
  | .evDisconnected => { s with state := .disconnected, pausedState := none }
  | .assignConnected => { s with state := .connected }
  | .assignRunning => { s with state := .running }
  | .storeBreakpoint url line col cond resp =>
      match resp with
      | some r =>
          let info := SessionManagerCdp.mkBreakpointInfo url line col cond r
          { s with breakpoints := s.breakpoints.set r.breakpointId info }
      | none => s
  | .commitRemoveBreakpoint bid cmdOk =>
      if s.breakpoints.has bid && cmdOk then
        { s with breakpoints := s.breakpoints.delete bid }
      else s

/-- Session record as createSession builds it, before the awaited client
connect: CONNECTING, no snapshot, handlers already armed. -/
def SessionManagerCdp.initConnecting : CdpSession := { state := .connecting }

/-- Run a sequence of atomic mutations. -/
def SessionManagerCdp.runWrites (s : CdpSession) (ws : List CdpWrite) :
    CdpSession :=
  ws.foldl SessionManagerCdp.write s

/-- Writes other than the two post-await state assignments. -/
def SessionManagerCdp.noStateAssign : CdpWrite → Bool
  | .assignConnected => false
  | .assignRunning => false
  | _ => true

/-- One direction of the pause invariant: PAUSED only with a snapshot.
Preserved by every atomic mutation. -/
theorem SessionManagerCdp.pausedImp_write (s : CdpSession) (w : CdpWrite)
    (h : s.state = .paused → s.pausedState.isSome = true) :
    (SessionManagerCdp.write s w).state = .paused →
      ((SessionManagerCdp.write s w).pausedState).isSome = true := by
  cases w with
  | evPaused ps => simp [SessionManagerCdp.write]
  | evResumed => simp [SessionManagerCdp.write]
  | evScriptParsed si => simpa [SessionManagerCdp.write] using h
  | evBreakpointResolved bid loc => simpa [SessionManagerCdp.write] using h
  | evDisconnected => simp [SessionManagerCdp.write]
  | assignConnected => simp [SessionManagerCdp.write]
  | assignRunning => simp [SessionManagerCdp.write]
  | storeBreakpoint url line col cond resp =>
      cases resp with
      | none => simpa [SessionManagerCdp.write] using h
      | some r => simpa [SessionManagerCdp.write] using h
  | commitRemoveBreakpoint bid cmdOk =>
      by_cases hb : s.breakpoints.has bid && cmdOk
      · simpa [SessionManagerCdp.write, hb] using h
      · simpa [SessionManagerCdp.write, hb] using h

/-- The PAUSED-only-with-snapshot direction along any run. -/
theorem SessionManagerCdp.pausedImp_runWrites (ws : List CdpWrite)
    (s : CdpSession)
    (h : s.state = .paused → s.pausedState.isSome = true) :
    (SessionManagerCdp.runWrites s ws).state = .paused →
      ((SessionManagerCdp.runWrites s ws).pausedState).isSome = true := by
  induction ws generalizing s with
  | nil => simpa [SessionManagerCdp.runWrites] using h
  | cons w rest ih =>
      have h1 := SessionManagerCdp.pausedImp_write s w h
      simpa [SessionManagerCdp.runWrites] using
        ih (SessionManagerCdp.write s w) h1

/-- The full equivalence is preserved by every write other than the two
post-await state assignments. -/
theorem SessionManagerCdp.pausedIff_write (s : CdpSession) (w : CdpWrite)
    (hn : SessionManagerCdp.noStateAssign w = true)
    (h : s.state = .paused ↔ s.pausedState.isSome = true) :
    ((SessionManagerCdp.write s w).state = .paused
      ↔ ((SessionManagerCdp.write s w).pausedState).isSome = true) := by
  cases w with
  | evPaused ps => simp [SessionManagerCdp.write]
  | evResumed => simp [SessionManagerCdp.write]
  | evScriptParsed si => simpa [SessionManagerCdp.write] using h
  | evBreakpointResolved bid loc => simpa [SessionManagerCdp.write] using h
  | evDisconnected => simp [SessionManagerCdp.write]
  | assignConnected => simp [SessionManagerCdp.noStateAssign] at hn
  | assignRunning => simp [SessionManagerCdp.noStateAssign] at hn
  | storeBreakpoint url line col cond resp =>
      cases resp with
      | none => simpa [SessionManagerCdp.write] using h
      | some r => simpa [SessionManagerCdp.write] using h
  | commitRemoveBreakpoint bid cmdOk =>
      by_cases hb : s.breakpoints.has bid && cmdOk
      · simpa [SessionManagerCdp.write, hb] using h
      · simpa [SessionManagerCdp.write, hb] using h

/-- The full equivalence along runs free of post-await state
assignments. -/
theorem SessionManagerCdp.pausedIff_runWrites (ws : List CdpWrite)
    (s : CdpSession) (hn : ws.all SessionManagerCdp.noStateAssign = true)
    (h : s.state = .paused ↔ s.pausedState.isSome = true) :
    ((SessionManagerCdp.runWrites s ws).state = .paused
      ↔ ((SessionManagerCdp.runWrites s ws).pausedState).isSome = true) := by
  induction ws generalizing s with
  | nil => simpa [SessionManagerCdp.runWrites] using h
  | cons w rest ih =>
      rw [List.all_cons, Bool.and_eq_true] at hn
      have h1 := SessionManagerCdp.pausedIff_write s w hn.1 h
      simpa [SessionManagerCdp.runWrites] using
        ih (SessionManagerCdp.write s w) hn.2 h1

/-- Counterexample to claim C7 as stated: a paused event interleaving
the awaited connect is clobbered by the CONNECTED assignment, and one
interleaving the resume CONNECTED branch is clobbered by the RUNNING
assignment; both leave a non-PAUSED state with a snapshot installed, so
the PAUSED-iff-snapshot equivalence fails in a reachable state. -/
theorem c7_counterexample :
    (SessionManagerCdp.runWrites SessionManagerCdp.initConnecting
        [.evPaused ps0, .assignConnected]).state = .connected
    ∧ (SessionManagerCdp.runWrites SessionManagerCdp.initConnecting
        [.evPaused ps0, .assignConnected]).pausedState = some ps0
    ∧ (SessionManagerCdp.runWrites SessionManagerCdp.initConnecting
        [.assignConnected, .evPaused ps0, .assignRunning]).state = .running
    ∧ (SessionManagerCdp.runWrites SessionManagerCdp.initConnecting
        [.assignConnected, .evPaused ps0, .assignRunning]).pausedState
      = some ps0 :=
  ⟨rfl, rfl, rfl, rfl⟩

/-- Claim C7 as amended: in every reachable state PAUSED implies the
snapshot is present, the paused handler installing both atomically and
the resumed and disconnected handlers clearing both; the converse can
fail, because the post-await CONNECTED and RUNNING assignments write
only the state field and so overwrite an interleaved pause, leaving a
non-PAUSED state with a snapshot; along runs free of those two
assignments the full equivalence holds from the installed CONNECTED
session. -/
theorem c7_paused_iff_snapshot :
    (∀ ws : List CdpWrite,
      (SessionManagerCdp.runWrites SessionManagerCdp.initConnecting ws).state
          = .paused →
        ((SessionManagerCdp.runWrites SessionManagerCdp.initConnecting
            ws).pausedState).isSome = true)
    ∧ (∀ s ps, SessionManagerCdp.write s (.evPaused ps)
        = { s with state := .paused, pausedState := some ps })
    ∧ (∀ s, SessionManagerCdp.write s .evResumed
        = { s with state := .running, pausedState := none })
    ∧ (∀ s, SessionManagerCdp.write s .evDisconnected
        = { s with state := .disconnected, pausedState := none })
    ∧ (∀ s, SessionManagerCdp.write s .assignConnected
        = { s with state := .connected })
    ∧ (∀ s, SessionManagerCdp.write s .assignRunning
        = { s with state := .running })
    ∧ (∀ ws : List CdpWrite, ws.all SessionManagerCdp.noStateAssign = true →
        ((SessionManagerCdp.runWrites { state := .connected } ws).state
            = .paused
          ↔ ((SessionManagerCdp.runWrites { state := .connected }
              ws).pausedState).isSome = true)) := by
  refine ⟨?_, ?_, ?_, ?_, ?_, ?_, ?_⟩
  · intro ws
    exact SessionManagerCdp.pausedImp_runWrites ws
      SessionManagerCdp.initConnecting
      (by simp [SessionManagerCdp.initConnecting])
  · intro s ps; rfl
  · intro s; rfl
  · intro s; rfl
  · intro s; rfl
  · intro s; rfl
  · intro ws hn
    exact SessionManagerCdp.pausedIff_runWrites ws { state := .connected } hn
      (by simp)

/-- Witness for C7 as amended: a pause reached without interleaving has
its snapshot, the assignment-free equivalence holds on a concrete trace,
and the RUNNING assignment leaves an installed snapshot in place. -/
theorem c7_paused_iff_snapshot_witness :
    ((SessionManagerCdp.runWrites SessionManagerCdp.initConnecting
        [.assignConnected, .evPaused ps0]).pausedState).isSome = true
    ∧ ((SessionManagerCdp.runWrites { state := .connected }
          [.evPaused ps0]).state = .paused
        ↔ ((SessionManagerCdp.runWrites { state := .connected }
            [.evPaused ps0]).pausedState).isSome = true)
    ∧ SessionManagerCdp.write (⟨.connected, some ps0, [], []⟩ : CdpSession)
        .assignRunning
      = (⟨.running, some ps0, [], []⟩ : CdpSession) := by
  have h := c7_paused_iff_snapshot
  refine ⟨h.1 [.assignConnected, .evPaused ps0] rfl,
    h.2.2.2.2.2.2 [.evPaused ps0] rfl, ?_⟩
  have h6 := h.2.2.2.2.2.1 (⟨.connected, some ps0, [], []⟩ : CdpSession)
  exact h6.trans (by rfl)

/-- Lookup after set at a different key. -/
theorem JsMap.get?_set_ne {α : Type} (m : JsMap α) (k b : String) (v : α)
    (h : k ≠ b) : (m.set k v).get? b = m.get? b := by
  induction m with
  | nil => simp [JsMap.set, JsMap.get?, h]
  | cons q rest ih =>
      obtain ⟨k1, w⟩ := q
      by_cases hk : k1 = k
      · subst hk
        simp [JsMap.set, JsMap.get?, h]
      · simp [JsMap.set, JsMap.get?, hk, ih]

/-- Deleting any key preserves the absence of a key. -/
theorem JsMap.get?_delete_none {α : Type} (m : JsMap α) (k b : String)
    (h : m.get? b = none) : (m.delete k).get? b = none := by
  induction m with
  | nil => simp [JsMap.delete, JsMap.get?]
  | cons q rest ih =>
      obtain ⟨k1, w⟩ := q
      by_cases hb : k1 = b
      · simp [JsMap.get?, hb] at h
      · simp only [JsMap.get?] at h
        rw [if_neg hb] at h
        by_cases hk : k1 = k
        · simp [JsMap.delete, hk, h]
        · simp [JsMap.delete, hk, JsMap.get?, hb, ih h]

/-- Absence of a key is absence from the key list. -/
theorem JsMap.get?_eq_none_iff {α : Type} (m : JsMap α) (k : String) :
    m.get? k = none ↔ k ∉ m.keysOf := by
  induction m with
  | nil => simp [JsMap.get?, JsMap.keysOf]
  | cons q rest ih =>
      obtain ⟨k1, w⟩ := q
      by_cases hk : k1 = k
      · simp [JsMap.get?, JsMap.keysOf, hk]
      · simp [JsMap.get?, JsMap.keysOf, hk, ih, Ne.symm hk]

/-- Entries after a set are the new pair or original entries. -/
theorem JsMap.mem_set {α : Type} (m : JsMap α) (k : String) (v : α)
    (p : String × α) (h : p ∈ m.set k v) : p = (k, v) ∨ p ∈ m := by
  induction m with
  | nil =>
      simp only [JsMap.set] at h
      exact Or.inl (List.mem_singleton.mp h)
  | cons q rest ih =>
      obtain ⟨k1, w⟩ := q
      by_cases hk : k1 = k
      · simp only [JsMap.set] at h
        rw [if_pos hk] at h
        rcases List.mem_cons.mp h with h1 | h1
        · exact Or.inl (by rw [h1, hk])
        · exact Or.inr (List.mem_cons_of_mem _ h1)
      · simp only [JsMap.set] at h
        rw [if_neg hk] at h
        rcases List.mem_cons.mp h with h1 | h1
        · exact Or.inr (h1 ▸ List.mem_cons_self _ _)
        · rcases ih h1 with h2 | h2
          · exact Or.inl h2
          · exact Or.inr (List.mem_cons_of_mem _ h2)

/-- Entries after a delete were entries before. -/
theorem JsMap.mem_delete {α : Type} (m : JsMap α) (k : String)
    (p : String × α) (h : p ∈ m.delete k) : p ∈ m := by
  induction m with
  | nil => simp [JsMap.delete] at h
  | cons q rest ih =>
      obtain ⟨k1, w⟩ := q
      by_cases hk : k1 = k
      · simp only [JsMap.delete] at h
        rw [if_pos hk] at h
        exact List.mem_cons_of_mem _ h
      · simp only [JsMap.delete] at h
        rw [if_neg hk] at h
        rcases List.mem_cons.mp h with h1 | h1
        · exact h1 ▸ List.mem_cons_self _ _
        · exact List.mem_cons_of_mem _ (ih h1)

/-- Key list after a set on an absent key: extended by the key. -/
theorem JsMap.keysOf_set_of_none {α : Type} (m : JsMap α) (k : String)
    (v : α) (h : m.get? k = none) :
    (m.set k v).keysOf = m.keysOf ++ [k] := by
  induction m with
  | nil => simp [JsMap.set, JsMap.keysOf]
  | cons q rest ih =>
      obtain ⟨k1, w⟩ := q
      by_cases hk : k1 = k
      · simp [JsMap.get?, hk] at h
      · simp only [JsMap.get?] at h
        rw [if_neg hk] at h
        have ih2 := ih h
        simp only [JsMap.keysOf] at ih2
        simp [JsMap.set, JsMap.keysOf, hk, ih2]

/-- Key list after a set on a present key: unchanged. -/
theorem JsMap.keysOf_set_of_some {α : Type} (m : JsMap α) (k : String)
    (v : α) (h : (m.get? k).isSome) :
    (m.set k v).keysOf = m.keysOf := by
  induction m with
  | nil => simp [JsMap.get?] at h
  | cons q rest ih =>
      obtain ⟨k1, w⟩ := q
      by_cases hk : k1 = k
      · simp [JsMap.set, JsMap.keysOf, hk]
      · simp only [JsMap.get?] at h
        rw [if_neg hk] at h
        have ih2 := ih h
        simp only [JsMap.keysOf] at ih2
        simp [JsMap.set, JsMap.keysOf, hk, ih2]

/-- Key list after a delete is a sublist of the key list. -/
theorem JsMap.keysOf_delete_sublist {α : Type} (m : JsMap α) (k : String) :
    ((m.delete k).keysOf).Sublist m.keysOf := by
  induction m with
  | nil => simp [JsMap.delete, JsMap.keysOf]
  | cons q rest ih =>
      obtain ⟨k1, w⟩ := q
      by_cases hk : k1 = k
      · simp only [JsMap.delete]
        rw [if_pos hk]
        simp only [JsMap.keysOf, List.map_cons]
        exact List.Sublist.cons _ (List.Sublist.refl _)
      · simp only [JsMap.delete]
        rw [if_neg hk]
        simp only [JsMap.keysOf, List.map_cons]
        exact List.Sublist.cons₂ _ ih

/-- Deleting a key removes it when keys are unique. -/
theorem JsMap.get?_delete_self {α : Type} (m : JsMap α) (k : String)
    (h : m.keysOf.Nodup) : (m.delete k).get? k = none := by
  induction m with
  | nil => simp [JsMap.delete, JsMap.get?]
  | cons q rest ih =>
      obtain ⟨k1, w⟩ := q
      have hco : (k1 :: JsMap.keysOf rest).Nodup := by
        simpa only [JsMap.keysOf, List.map_cons] using h
      have hpair := List.nodup_cons.mp hco
      by_cases hk : k1 = k
      · simp only [JsMap.delete]
        rw [if_pos hk]
        exact (JsMap.get?_eq_none_iff rest k).mpr (hk ▸ hpair.1)
      · simp only [JsMap.delete]
        rw [if_neg hk]
        simp [JsMap.get?, hk, ih hpair.2]

/-- A present entry makes the lookup succeed. -/
theorem JsMap.get?_isSome_of_mem {α : Type} (m : JsMap α) (k : String)
    (v : α) (h : (k, v) ∈ m) : (m.get? k).isSome := by
  induction m with
  | nil => simp at h
  | cons q rest ih =>
      obtain ⟨k1, w⟩ := q
      by_cases hk : k1 = k
      · simp [JsMap.get?, hk]
      · rcases List.mem_cons.mp h with h1 | h1
        · exact absurd ((Prod.mk.injEq _ _ _ _).mp h1).1.symm hk
        · simp [JsMap.get?, hk, ih h1]

/-- A successful lookup yields an entry of the list. -/
theorem JsMap.mem_of_get?_eq_some {α : Type} (m : JsMap α) (k : String)
    (v : α) (h : m.get? k = some v) : (k, v) ∈ m := by
  induction m with
  | nil => simp [JsMap.get?] at h
  | cons q rest ih =>
      obtain ⟨k1, w⟩ := q
      by_cases hk : k1 = k
      · subst hk
        simp only [JsMap.get?, if_pos rfl] at h
        obtain rfl := Option.some.inj h
        exact List.mem_cons_self _ _
      · simp only [JsMap.get?] at h
        rw [if_neg hk] at h
        exact List.mem_cons_of_mem _ (ih h)

/-- When every stored value carries its key and a key is absent, no
value of the map carries that key. -/
theorem JsMap.values_ne_of_absent {α : Type} (m : JsMap α) (b : String)
    (f : α → String) (hid : ∀ p ∈ m, f p.2 = p.1) (h : m.get? b = none) :
    ∀ v ∈ m.values, f v ≠ b := by
  intro v hv hfb
  rcases List.mem_map.mp hv with ⟨p, hp, hpe⟩
  have hk : p.1 = b := by rw [← hid p hp, hpe, hfb]
  have hsome : (m.get? b).isSome :=
    JsMap.get?_isSome_of_mem m b p.2 (by
      have : (p.1, p.2) ∈ m := by simpa using hp
      rwa [hk] at this)
  rw [h] at hsome
  simp at hsome

/-- Well-formedness of the breakpoint table: unique keys, and every
record carries its key as its id (setBreakpoint stores the record under
the target-issued id and no handler changes the id). -/
def SessionManagerCdp.wfBp (m : JsMap BreakpointInfo) : Prop :=
  m.keysOf.Nodup ∧ ∀ p ∈ m, (Prod.snd p).id = p.1

/-- Well-formedness is preserved by a set whose value carries the
key. -/
theorem SessionManagerCdp.wfBp_set (m : JsMap BreakpointInfo) (k : String)
    (v : BreakpointInfo) (hv : v.id = k) (h : SessionManagerCdp.wfBp m) :
    SessionManagerCdp.wfBp (m.set k v) := by
  constructor
  · cases hg : m.get? k with
    | none =>
        rw [JsMap.keysOf_set_of_none m k v hg]
        refine List.Nodup.append h.1 (List.nodup_singleton k) ?_
        intro a ha hb
        rw [List.mem_singleton.mp hb] at ha
        exact (JsMap.get?_eq_none_iff m k).mp hg ha
    | some w =>
        rw [JsMap.keysOf_set_of_some m k v (by rw [hg]; rfl)]
        exact h.1
  · intro p hp
    rcases JsMap.mem_set m k v p hp with h1 | h1
    · rw [h1]; exact hv
    · exact h.2 p h1

/-- Well-formedness is preserved by a delete. -/
theorem SessionManagerCdp.wfBp_delete (m : JsMap BreakpointInfo)
    (k : String) (h : SessionManagerCdp.wfBp m) :
    SessionManagerCdp.wfBp (m.delete k) :=
  ⟨List.Nodup.sublist (JsMap.keysOf_delete_sublist m k) h.1,
    fun p hp => h.2 p (JsMap.mem_delete m k p hp)⟩

/-- Well-formedness of the breakpoint table is preserved by every
step. -/
theorem SessionManagerCdp.wfBp_step (s : CdpSession) (e : SessStep)
    (h : SessionManagerCdp.wfBp s.breakpoints) :
    SessionManagerCdp.wfBp (SessionManagerCdp.step s e).breakpoints := by
  cases e with
  | evPaused ps => simpa [SessionManagerCdp.step] using h
  | evResumed => simpa [SessionManagerCdp.step] using h
  | evScriptParsed si => simpa [SessionManagerCdp.step] using h
  | evDisconnected => simpa [SessionManagerCdp.step] using h
  | opResume =>
      simp only [SessionManagerCdp.step]
      split_ifs <;> simpa using h
  | evBreakpointResolved bid loc =>
      simp only [SessionManagerCdp.step]
      cases hg : s.breakpoints.get? bid with
      | none =>
          simpa [SessionManagerCdp.onBreakpointResolved, hg] using h
      | some bp =>
          have hmem := JsMap.mem_of_get?_eq_some s.breakpoints bid bp hg
          have hid : bp.id = bid := h.2 (bid, bp) hmem
          simp only [SessionManagerCdp.onBreakpointResolved, hg]
          exact SessionManagerCdp.wfBp_set _ _ _ (by simpa using hid) h
  | opSetBreakpoint url line col cond resp =>
      cases resp with
      | none => simpa [SessionManagerCdp.step] using h
      | some r =>
          simp only [SessionManagerCdp.step]
          exact SessionManagerCdp.wfBp_set _ _ _ rfl h
  | opRemoveBreakpoint bid cmdOk =>
      simp only [SessionManagerCdp.step]
      split_ifs with hb
      · exact SessionManagerCdp.wfBp_delete _ _ h
      · exact h

/-- Steps that do not install a breakpoint under the given id: every
event, and every operation except a setBreakpoint whose target response
carries that id. -/
def SessionManagerCdp.notSetOf (b : String) : SessStep → Bool
  | .opSetBreakpoint _ _ _ _ (some r) => r.breakpointId != b
  | _ => true

/-- A single step that does not install the id keeps it absent. -/
theorem SessionManagerCdp.absent_step (s : CdpSession) (e : SessStep)
    (b : String) (ha : s.breakpoints.get? b = none)
    (hn : SessionManagerCdp.notSetOf b e = true) :
    (SessionManagerCdp.step s e).breakpoints.get? b = none := by
  cases e with
  | evPaused ps => simpa [SessionManagerCdp.step] using ha
  | evResumed => simpa [SessionManagerCdp.step] using ha
  | evScriptParsed si => simpa [SessionManagerCdp.step] using ha
  | evDisconnected => simpa [SessionManagerCdp.step] using ha
  | opResume =>
      simp only [SessionManagerCdp.step]
      split_ifs <;> simpa using ha
  | evBreakpointResolved bid loc =>
      simp only [SessionManagerCdp.step]
      cases hg : s.breakpoints.get? bid with
      | none =>
          simpa [SessionManagerCdp.onBreakpointResolved, hg] using ha
      | some bp =>
          have hne : bid ≠ b := by
            rintro rfl
            rw [ha] at hg
            exact Option.noConfusion hg
          simp only [SessionManagerCdp.onBreakpointResolved, hg]
          rw [JsMap.get?_set_ne _ _ _ _ hne]
          exact ha
  | opSetBreakpoint url line col cond resp =>
      cases resp with
      | none => simpa [SessionManagerCdp.step] using ha
      | some r =>
          have hne : r.breakpointId ≠ b := by
            simpa [SessionManagerCdp.notSetOf] using hn
          simp only [SessionManagerCdp.step]
          rw [JsMap.get?_set_ne _ _ _ _ hne]
          exact ha
  | opRemoveBreakpoint bid cmdOk =>
      simp only [SessionManagerCdp.step]
      split_ifs with hb
      · exact JsMap.get?_delete_none _ _ _ ha
      · exact ha

/-- Absence and well-formedness along a run of steps that never install
the id. -/
theorem SessionManagerCdp.absent_run (steps : List SessStep)
    (s : CdpSession) (b : String) (hw : SessionManagerCdp.wfBp s.breakpoints)
    (ha : s.breakpoints.get? b = none)
    (hn : steps.all (SessionManagerCdp.notSetOf b) = true) :
    SessionManagerCdp.wfBp (SessionManagerCdp.run s steps).breakpoints
      ∧ (SessionManagerCdp.run s steps).breakpoints.get? b = none := by
  induction steps generalizing s with
  | nil => exact ⟨by simpa [SessionManagerCdp.run] using hw,
      by simpa [SessionManagerCdp.run] using ha⟩
  | cons e rest ih =>
      rw [List.all_cons, Bool.and_eq_true] at hn
      have hw2 := SessionManagerCdp.wfBp_step s e hw
      have ha2 := SessionManagerCdp.absent_step s e b ha hn.1
      simpa [SessionManagerCdp.run] using
        ih (SessionManagerCdp.step s e) hw2 ha2 hn.2

/-- Session state after setBreakpoint with the given target response
followed by removeBreakpoint with the returned id, starting from the
state reached by pre. -/
def SessionManagerCdp.afterSetRemove (pre : List SessStep) (url : String)
    (line : Int) (col : Option Int) (cond : Option String)
    (resp : SetBpResponse) : CdpSession :=
  SessionManagerCdp.step
    (SessionManagerCdp.step
      (SessionManagerCdp.run SessionManagerCdp.initSession pre)
      (.opSetBreakpoint url line col cond (some resp)))
    (.opRemoveBreakpoint resp.breakpointId true)

/-- Well-formedness of the breakpoint table along any run. -/
theorem SessionManagerCdp.wfBp_run (steps : List SessStep) (s : CdpSession)
    (h : SessionManagerCdp.wfBp s.breakpoints) :
    SessionManagerCdp.wfBp (SessionManagerCdp.run s steps).breakpoints := by
  induction steps generalizing s with
  | nil => simpa [SessionManagerCdp.run] using h
  | cons e rest ih =>
      have h1 := SessionManagerCdp.wfBp_step s e h
      simpa [SessionManagerCdp.run] using ih (SessionManagerCdp.step s e) h1

/-- Claim C8: from any reachable state, a successful setBreakpoint
followed by removeBreakpoint with the returned id removes the id from
the breakpoint table; the id does not appear in any later
listBreakpoints result along steps that do not install it again, and
the listing is empty when it was the only breakpoint. -/
theorem c8_set_remove_breakpoint (pre : List SessStep) (url : String)
    (line : Int) (col : Option Int) (cond : Option String)
    (resp : SetBpResponse) (rest : List SessStep)
    (hrest : rest.all (SessionManagerCdp.notSetOf resp.breakpointId) = true) :
    (∀ bp ∈ SessionManagerCdp.listBreakpoints
        (SessionManagerCdp.afterSetRemove pre url line col cond resp),
      bp.id ≠ resp.breakpointId)
    ∧ (∀ bp ∈ SessionManagerCdp.listBreakpoints
        (SessionManagerCdp.run
          (SessionManagerCdp.afterSetRemove pre url line col cond resp) rest),
      bp.id ≠ resp.breakpointId)
    ∧ ((SessionManagerCdp.run SessionManagerCdp.initSession pre).breakpoints
          = [] →
        SessionManagerCdp.listBreakpoints
          (SessionManagerCdp.afterSetRemove pre url line col cond resp)
          = []) := by
  set s0 := SessionManagerCdp.run SessionManagerCdp.initSession pre with hs0def
  set info := SessionManagerCdp.mkBreakpointInfo url line col cond resp
    with hinfodef
  set s1 := SessionManagerCdp.step s0
    (.opSetBreakpoint url line col cond (some resp)) with hs1def
  set s2 := SessionManagerCdp.afterSetRemove pre url line col cond resp
    with hs2def
  have hs2eq : s2 = SessionManagerCdp.step s1
      (.opRemoveBreakpoint resp.breakpointId true) := by
    rw [hs2def, hs1def, hs0def]
    rfl
  have hw0 : SessionManagerCdp.wfBp s0.breakpoints := by
    rw [hs0def]
    refine SessionManagerCdp.wfBp_run pre SessionManagerCdp.initSession
      ⟨by simp [SessionManagerCdp.initSession, JsMap.keysOf], ?_⟩
    intro p hp
    simp [SessionManagerCdp.initSession] at hp
  have hs1b : s1.breakpoints = s0.breakpoints.set resp.breakpointId info := by
    rw [hs1def]
    simp [SessionManagerCdp.step, hinfodef]
  have hw1 : SessionManagerCdp.wfBp s1.breakpoints := by
    rw [hs1def]
    exact SessionManagerCdp.wfBp_step s0 _ hw0
  have hs2b : s2.breakpoints = s1.breakpoints.delete resp.breakpointId := by
    rw [hs2eq]
    have hhas : s1.breakpoints.has resp.breakpointId = true := by
      rw [hs1b]
      simp [JsMap.has, JsMap.get?_set_self]
    simp [SessionManagerCdp.step, hhas]
  have hw2 : SessionManagerCdp.wfBp s2.breakpoints := by
    rw [hs2eq]
    exact SessionManagerCdp.wfBp_step s1 _ hw1
  have ha2 : s2.breakpoints.get? resp.breakpointId = none := by
    rw [hs2b]
    exact JsMap.get?_delete_self _ _ hw1.1
  refine ⟨?_, ?_, ?_⟩
  · intro bp hbp
    exact JsMap.values_ne_of_absent s2.breakpoints resp.breakpointId
      BreakpointInfo.id hw2.2 ha2 bp hbp
  · intro bp hbp
    obtain ⟨hwr, har⟩ := SessionManagerCdp.absent_run rest s2
      resp.breakpointId hw2 ha2 hrest
    exact JsMap.values_ne_of_absent _ _ BreakpointInfo.id hwr.2 har bp hbp
  · intro hempty
    have hb2 : s2.breakpoints = [] := by
      rw [hs2b, hs1b, hempty]
      simp [JsMap.set, JsMap.delete]
    simp [SessionManagerCdp.listBreakpoints, JsMap.values, hb2]

/-- Witness for C8: a fresh session, one breakpoint set and removed,
ends with an empty listing. -/
theorem c8_set_remove_breakpoint_witness :
    SessionManagerCdp.listBreakpoints
      (SessionManagerCdp.afterSetRemove [] "file:///a.js" 10 none none
        ⟨"bp-1", [⟨"s-1", 10, some 0⟩]⟩) = [] :=
  (c8_set_remove_breakpoint [] "file:///a.js" 10 none none
    ⟨"bp-1", [⟨"s-1", 10, some 0⟩]⟩ [.evResumed] (by rfl)).2.2 rfl

/-- Result of originalPositionFor from the source-map library; every
field may be null. -/
structure OrigPosResult where
  source : Option String := none
  line : Option Int := none
  column : Option Int := none
  name : Option String := none
deriving DecidableEq, Repr

/-- Consumer of a loaded source map, modelled by its originalPositionFor
query on a 1-based line and 0-based column. -/
def SmConsumer : Type := Int → Int → OrigPosResult

/-- Original location returned by the source-map manager. -/
structure OriginalLocation where
  source : String
  line : Option Int
  column : Option Int
  name : Option String
deriving DecidableEq, Repr

/-- getOriginalLocation of the source-map manager: query the consumer of
the script, drop results with a falsy source. -/
def SourceMapManager.getOriginalLocation (consumers : JsMap SmConsumer)
    (scriptId : String) (line column : Int) : Option OriginalLocation :=
  match consumers.get? scriptId with
  | none => none
  | some c =>
      let original := c line column
      match original.source with
      | none => none
      | some src =>
          if src = "" then none
          else some ⟨src, original.line, original.column, original.name⟩

/-- Original location attached to an enriched call frame. -/
structure EnrichedOriginal where
  sourceUrl : String
  lineNumber : Int
  columnNumber : Int
  functionName : Option String
deriving DecidableEq, Repr

/-- Enriched call frame: generated location plus optional original. -/
structure EnrichedCallFrame where
  callFrameId : String
  functionName : String
  generatedLocation : ResolvedLocation
  scopeChain : List Scope
  thisObject : RemoteObject
  originalLocation : Option EnrichedOriginal := none
deriving DecidableEq, Repr

/-- Enrichment of one call frame: the 0-based wire line is incremented
by 1 before the source-map query, the column passed unchanged with 0 for
an absent column. -/
def SessionManagerCdp.enrichFrame (consumers : JsMap SmConsumer)
    (frame : CallFrame) : EnrichedCallFrame :=
  let original := SourceMapManager.getOriginalLocation consumers
    frame.location.scriptId (frame.location.lineNumber + 1)
    (frame.location.columnNumber.getD 0)
  { callFrameId := frame.callFrameId
    functionName := frame.functionName
    generatedLocation := ⟨frame.location.scriptId, frame.location.lineNumber,
      frame.location.columnNumber.getD 0⟩
    scopeChain := frame.scopeChain
    thisObject := frame.thisObject
    originalLocation := original.map
      (fun o => ⟨o.source, o.line.getD 0, o.column.getD 0, o.name⟩) }

/-- enrichCallFrames over the paused snapshot. -/
def SessionManagerCdp.enrichCallFrames (consumers : JsMap SmConsumer)
    (pausedState : Option PausedState) : List EnrichedCallFrame :=
  match pausedState with
  | none => []
  | some ps => ps.callFrames.map (SessionManagerCdp.enrichFrame consumers)

/-- Original location in the getOriginalLocation result. -/
structure OrigOut where
  sourceUrl : String
  lineNumber : Int
  columnNumber : Int
  name : Option String
deriving DecidableEq, Repr

/-- Result of the getOriginalLocation operation. -/
structure OrigLocResult where
  hasSourceMap : Bool
  original : Option OrigOut := none
deriving DecidableEq, Repr

/-- getOriginalLocation of the CDP session manager: the user-provided
1-based line and 0-based column are passed to the map unchanged. -/
def SessionManagerCdp.getOriginalLocation (consumers : JsMap SmConsumer)
    (scriptId : String) (lineNumber columnNumber : Int) : OrigLocResult :=
  if (consumers.get? scriptId).isSome = false then ⟨false, none⟩
  else
    match SourceMapManager.getOriginalLocation consumers scriptId
        lineNumber columnNumber with
    | none => ⟨true, none⟩
    | some o => ⟨true, some ⟨o.source, o.line.getD 0, o.column.getD 0, o.name⟩⟩

/-- Claim C9: call-stack enrichment queries the map at the frame wire
line plus 1 with the column unchanged, getOriginalLocation queries at
the user-provided coordinates unchanged, and both outputs come directly
from the map result. -/
theorem c9_line_base_conventions (consumers : JsMap SmConsumer)
    (sid : String) (c : SmConsumer) (hc : consumers.get? sid = some c) :
    (∀ ps, SessionManagerCdp.enrichCallFrames consumers (some ps)
      = ps.callFrames.map (SessionManagerCdp.enrichFrame consumers))
    ∧ (∀ f : CallFrame, f.location.scriptId = sid →
        (SessionManagerCdp.enrichFrame consumers f).originalLocation =
          (match (c (f.location.lineNumber + 1)
              (f.location.columnNumber.getD 0)).source with
           | none => none
           | some src =>
               if src = "" then none
               else some ⟨src,
                 ((c (f.location.lineNumber + 1)
                   (f.location.columnNumber.getD 0)).line).getD 0,
                 ((c (f.location.lineNumber + 1)
                   (f.location.columnNumber.getD 0)).column).getD 0,
                 (c (f.location.lineNumber + 1)
                   (f.location.columnNumber.getD 0)).name⟩))
    ∧ (∀ line column : Int,
        SessionManagerCdp.getOriginalLocation consumers sid line column =
          (match (c line column).source with
           | none => ⟨true, none⟩
           | some src =>
               if src = "" then ⟨true, none⟩
               else ⟨true, some ⟨src, ((c line column).line).getD 0,
                 ((c line column).column).getD 0, (c line column).name⟩⟩)) := by
  refine ⟨fun ps => rfl, ?_, ?_⟩
  · intro f hf
    simp only [SessionManagerCdp.enrichFrame,
      SourceMapManager.getOriginalLocation, hf, hc]
    cases hsrc : (c (f.location.lineNumber + 1)
        (f.location.columnNumber.getD 0)).source with
    | none => simp [hsrc]
    | some src =>
        by_cases h0 : src = "" <;> simp [hsrc, h0]
  · intro line column
    simp only [SessionManagerCdp.getOriginalLocation,
      SourceMapManager.getOriginalLocation, hc]
    cases hsrc : (c line column).source with
    | none => simp [hsrc]
    | some src =>
        by_cases h0 : src = "" <;> simp [hsrc, h0]

/-- Consumer used by the concrete source-map test: original line is the
generated line minus 5, column passed through. -/
def c9consumer : SmConsumer :=
  fun line column => ⟨some "src/a.ts", some (line - 5), some column, some "f"⟩

/-- One-script consumer table for the concrete test. -/
def c9map : JsMap SmConsumer := [("s-1", c9consumer)]

/-- Witness for C9: frame at wire line 10 queries the map at line 11 and
receives original line 6; the operation at line 11 likewise. -/
theorem c9_line_base_conventions_witness :
    (SessionManagerCdp.enrichFrame c9map
        ⟨"frame-1", "fn", ⟨"s-1", 10, some 2⟩, [],
          ⟨"object", none, none, none, none⟩⟩).originalLocation
      = some ⟨"src/a.ts", 6, 2, some "f"⟩
    ∧ SessionManagerCdp.getOriginalLocation c9map "s-1" 11 0
      = ⟨true, some ⟨"src/a.ts", 6, 0, some "f"⟩⟩ := by
  have h := c9_line_base_conventions c9map "s-1" c9consumer rfl
  constructor
  · exact (h.2.1 ⟨"frame-1", "fn", ⟨"s-1", 10, some 2⟩, [],
      ⟨"object", none, none, none, none⟩⟩ rfl).trans (by decide)
  · exact (h.2.2 11 0).trans (by decide)

/-- Match of a pattern against the front of a character list. -/
def leadMatch : List Char → List Char → Bool
  | [], _ => true
  | _ :: _, [] => false
  | p :: ps, c :: cs => p = c && leadMatch ps cs

/-- Occurrence of a pattern anywhere in a character list. -/
def hasSub : List Char → List Char → Bool
  | pat, [] => leadMatch pat []
  | pat, c :: cs => leadMatch pat (c :: cs) || hasSub pat cs

/-- JavaScript String.includes. -/
def strIncludes (s pat : String) : Bool := hasSub pat.data s.data

/-- JavaScript String.startsWith. -/
def strStarts (s pat : String) : Bool := leadMatch pat.data s.data

/-- Predicate used by the listScripts default filter: node_modules,
node: and internal/ URLs, and the empty URL, count as internal. -/
def SessionManagerCdp.isInternalForFilter (url : String) : Bool :=
  strIncludes url "node_modules" || strStarts url "node:"
    || strStarts url "internal/" || url == ""

/-- Predicate used for the reported isInternal flag: the empty-URL test
is absent. -/
def SessionManagerCdp.isInternalFlag (url : String) : Bool :=
  strIncludes url "node_modules" || strStarts url "node:"
    || strStarts url "internal/"

/-- Entry of the listScripts result. -/
structure ScriptEntry where
  scriptId : String
  url : String
  sourceMapUrl : Option String
  originalSources : Option (List String)
  isInternal : Bool
deriving DecidableEq, Repr

/-- listScripts of the CDP session manager over the cached script
records; origSources is the source-map manager lookup. -/
def SessionManagerCdp.listScripts (scripts : List ScriptInfo)
    (origSources : String → Option (List String)) (includeInternal : Bool) :
    List ScriptEntry :=
  (scripts.filter (fun sc =>
      if includeInternal then true
      else !(SessionManagerCdp.isInternalForFilter sc.url))).map
    (fun sc => ⟨sc.scriptId, sc.url, sc.sourceMapUrl,
      origSources sc.scriptId, SessionManagerCdp.isInternalFlag sc.url⟩)

/-- Claim C10: the default filter and the reported flag use different
predicates on the empty URL: an empty-URL script is filtered out when
includeInternal is false, but with includeInternal true it is returned
with isInternal false, the flag computation omitting the empty-URL
test. -/
theorem c10_empty_url_internal :
    SessionManagerCdp.isInternalForFilter "" = true
    ∧ SessionManagerCdp.isInternalFlag "" = false
    ∧ (∀ scripts origSources,
        ∀ e ∈ SessionManagerCdp.listScripts scripts origSources false,
          e.url ≠ "")
    ∧ (∀ scripts origSources,
        SessionManagerCdp.listScripts scripts origSources true
          = scripts.map (fun sc => ⟨sc.scriptId, sc.url, sc.sourceMapUrl,
              origSources sc.scriptId,
              SessionManagerCdp.isInternalFlag sc.url⟩)) := by
  refine ⟨by decide, by decide, ?_, ?_⟩
  · intro scripts origSources e he
    rcases List.mem_map.mp he with ⟨sc, hsc, rfl⟩
    have hf := (List.mem_filter.mp hsc).2
    simp only [Bool.if_false_left, Bool.not_eq_true'] at hf
    simp [SessionManagerCdp.isInternalForFilter] at hf
    exact hf.2
  · intro scripts origSources
    simp [SessionManagerCdp.listScripts]

/-- Witness for C10: a script with an empty URL is returned by the
includeInternal listing with isInternal false, while the filter
predicate classifies the empty URL as internal. -/
theorem c10_empty_url_internal_witness :
    SessionManagerCdp.listScripts
        [⟨"s-3", "", none, 0, 0, 0, 0, "", none, none⟩] (fun _ => none) true
      = [⟨"s-3", "", none, none, false⟩]
    ∧ SessionManagerCdp.isInternalForFilter "" = true := by
  have h := c10_empty_url_internal
  exact ⟨(h.2.2.2 [⟨"s-3", "", none, 0, 0, 0, 0, "", none, none⟩]
    (fun _ => none)).trans (by decide), h.1⟩

/-- Character class of the regular-expression dot without the s flag:
anything but a line terminator. -/
def isDotChar (c : Char) : Bool :=
  c ≠ '\n' && c ≠ '\r' && c ≠ ' ' && c ≠ ' '

/-- Removal of a literal pattern from the front of a character list,
returning the remainder on success. -/
def dropLead : List Char → List Char → Option (List Char)
  | [], cs => some cs
  | _ :: _, [] => none
  | p :: ps, c :: cs => if p = c then dropLead ps cs else none

/-- Check of the capture group: one or more dot characters up to the end
of input. -/
def payloadCheck (payload : List Char) : Option String :=
  if payload.isEmpty then none
  else if payload.all isDotChar then some (String.mk payload) else none

/-- Capture group of the implementation regular expression for inline
source-map data URLs: the literal data:application/json; then an
optional literal charset=utf-8; then the literal base64, then the
payload captured by a dot-plus anchored at the end.  The alternation of
the optional group is deterministic because the two continuations start
with different characters. -/
def SourceMapManager.inlineDataUrlMatch (dataUrl : String) : Option String :=
  match dropLead "data:application/json;".data dataUrl.data with
  | none => none
  | some r1 =>
      let r2 := match dropLead "charset=utf-8;".data r1 with
        | some t => t
        | none => r1
      match dropLead "base64,".data r2 with
      | none => none
      | some payload => payloadCheck payload

/-- Spec-stated data-URL form, for comparison with the implementation:
after the media type an optional charset of any nonempty value free of
semicolons, then the base64 marker and a nonempty payload. -/
def specInlineDataUrlForm (dataUrl : String) : Bool :=
  match dropLead "data:application/json".data dataUrl.data with
  | none => false
  | some r1 =>
      match dropLead ";charset=".data r1 with
      | some r2 =>
          let cs := r2.takeWhile (fun c => c ≠ ';')
          if cs.isEmpty then false
          else
            match dropLead ";base64,".data (r2.drop cs.length) with
            | none => false
            | some payload => !payload.isEmpty && payload.all isDotChar
      | none =>
          match dropLead ";base64,".data r1 with
          | none => false
          | some payload => !payload.isEmpty && payload.all isDotChar

/-- Amended documented form: the charset, when present, is exactly
utf-8. -/
def amendedInlineDataUrlForm (dataUrl : String) : Bool :=
  match dropLead "data:application/json;".data dataUrl.data with
  | none => false
  | some r1 =>
      match dropLead "charset=utf-8;".data r1 with
      | some r2 =>
          (match dropLead "base64,".data r2 with
           | none => false
           | some payload => !payload.isEmpty && payload.all isDotChar)
      | none =>
          (match dropLead "base64,".data r1 with
           | none => false
           | some payload => !payload.isEmpty && payload.all isDotChar)

/-- State of the source-map manager touched by the inline loader; a
consumer is kept as its declared source list. -/
structure SmmState where
  consumers : JsMap (List String)
  originalSources : JsMap (List String)
deriving DecidableEq, Repr

/-- loadInlineSourceMap: match the data URL against the implementation
regular expression, base64-decode the captured payload, parse it and
build a consumer (parseConsumer models JSON.parse plus the consumer
constructor, none when either throws), then record the consumer and its
sources.  Every failure leaves the state unchanged and returns
false. -/
def SourceMapManager.loadInlineSourceMap
    (parseConsumer : String → Option (List String))
    (decodeBase64 : String → String) (st : SmmState) (scriptId : String)
    (dataUrl : String) : Bool × SmmState :=
  match SourceMapManager.inlineDataUrlMatch dataUrl with
  | none => (false, st)
  | some payload =>
      match parseConsumer (decodeBase64 payload) with
      | none => (false, st)
      | some sources =>
          (true, ⟨st.consumers.set scriptId sources,
            st.originalSources.set scriptId sources⟩)

/-- Counterexample to claim C6 as stated: a data URL with a charset
other than utf-8 matches the documented form but is rejected by the
implementation, which loads nothing. -/
theorem c6_counterexample :
    specInlineDataUrlForm
        "data:application/json;charset=iso-8859-1;base64,e30=" = true
    ∧ SourceMapManager.inlineDataUrlMatch
        "data:application/json;charset=iso-8859-1;base64,e30=" = none
    ∧ SourceMapManager.loadInlineSourceMap (fun _ => some []) (fun s => s)
        ⟨[], []⟩ "s-1" "data:application/json;charset=iso-8859-1;base64,e30="
      = (false, ⟨[], []⟩) :=
  ⟨by decide, by decide, by decide⟩

/-- The payload check succeeds exactly on a nonempty all-dot payload. -/
theorem payloadCheck_isSome (payload : List Char) :
    (payloadCheck payload).isSome = (!payload.isEmpty && payload.all isDotChar) := by
  by_cases h1 : payload.isEmpty
  · simp [payloadCheck, h1]
  · by_cases h2 : payload.all isDotChar <;> simp [payloadCheck, h1, h2]

/-- Claim C6 as amended: the inline loader recognises exactly the data
URLs of the form data:application/json; optional charset=utf-8; then
base64 and a payload (the charset, when present, is exactly utf-8, not
an arbitrary value); on a match it base64-decodes the payload and parses
it, recording the consumer, and on any other string it loads nothing and
leaves the state unchanged. -/
theorem c6_inline_source_map (parseConsumer : String → Option (List String))
    (decodeBase64 : String → String) (st : SmmState) (scriptId : String)
    (dataUrl : String) :
    (SourceMapManager.inlineDataUrlMatch dataUrl = none →
      SourceMapManager.loadInlineSourceMap parseConsumer decodeBase64 st
        scriptId dataUrl = (false, st))
    ∧ (∀ payload, SourceMapManager.inlineDataUrlMatch dataUrl = some payload →
        SourceMapManager.loadInlineSourceMap parseConsumer decodeBase64 st
            scriptId dataUrl =
          (match parseConsumer (decodeBase64 payload) with
           | none => (false, st)
           | some sources =>
               (true, ⟨st.consumers.set scriptId sources,
                 st.originalSources.set scriptId sources⟩)))
    ∧ ((SourceMapManager.inlineDataUrlMatch dataUrl).isSome
        = amendedInlineDataUrlForm dataUrl) := by
  refine ⟨?_, ?_, ?_⟩
  · intro h
    simp [SourceMapManager.loadInlineSourceMap, h]
  · intro payload h
    simp [SourceMapManager.loadInlineSourceMap, h]
  · simp only [SourceMapManager.inlineDataUrlMatch, amendedInlineDataUrlForm]
    cases h1 : dropLead "data:application/json;".data dataUrl.data with
    | none => simp
    | some r1 =>
        cases h2 : dropLead "charset=utf-8;".data r1 with
        | none =>
            cases h3 : dropLead "base64,".data r1 with
            | none => simp [h2, h3]
            | some payload => simp [h2, h3, payloadCheck_isSome]
        | some r2 =>
            cases h3 : dropLead "base64,".data r2 with
            | none => simp [h2, h3]
            | some payload => simp [h2, h3, payloadCheck_isSome]

/-- Witness for C6 as amended: a charset-free inline map is decoded,
parsed and recorded. -/
theorem c6_inline_source_map_witness :
    SourceMapManager.loadInlineSourceMap (fun _ => some ["src/a.ts"])
        (fun s => s) ⟨[], []⟩ "s-1" "data:application/json;base64,e30="
      = (true, ⟨[("s-1", ["src/a.ts"])], [("s-1", ["src/a.ts"])]⟩) := by
  have h := (c6_inline_source_map (fun _ => some ["src/a.ts"]) (fun s => s)
    ⟨[], []⟩ "s-1" "data:application/json;base64,e30=").2.1 "e30=" (by decide)
  exact h.trans (by decide)
